import Mathlib

/-!
Shallow embedding of the hierarchical logging facility of `src/logging.cpp`
(`src/include/logging.h`), together with theorems checking the specification's
claims about it.

The embedding is faithful to the C++ source:
* the per-node configuration (`LoggerState`) mirrors the data members of
  `class Logger` that the claims are about;
* `set_loglevel`, `set_streamer`, `set_propagation`, `set_logfile` and the
  root/named factory functions `get_logger` are translated operation by
  operation, including the `UNCHANGED`/`ROOT_DEBUG` sentinels, the
  `abs`/`min`/`max` clamping, the `submod = module.substr(0, pos)` prefix
  extraction and the `exit_loop > max_submod` ceiling;
* the emission walk of `Logger::logaux` is modelled on the explicit ancestor
  chain of a node (originating node first, root last).
-/

namespace McastLogging

/-! ### Constants from `src/include/logging.h` -/

def UNCHANGED : Int := -1
def ROOT_DEBUG : Int := -2

def DEVNULL : Int := 0
def STDOUT : Int := 1
def STDERR : Int := 2
def STDLOG : Int := 3

def NOTSET : Int := 0
def DEBUG : Int := 1
def INFO : Int := 2
def WARNING : Int := 3
def ERROR : Int := 4
def CRITICAL : Int := 5
def MINLOG : Int := NOTSET
def MAXLOG : Int := CRITICAL

def MODULE_NAME_SIZE : Nat := 8
def MAX_MODULE_SUBFIELDS : Nat := 24
def ROOT_DEBUG_MODULE_NAME_SIZE : Nat := 32
def ROOT_DEBUG_MAX_MODULE_SUBFIELDS : Nat := 32

/-! ### Per-node state

`OStream` stands for the three standard C++ output streams that
`Logger::set_streamer` can select; `outstream = none` models the
`nullptr` (discard) setting. -/

inductive OStream where
  | cout
  | cerr
  | clog
deriving DecidableEq, Repr

/-- The mutable per-node data members of `class Logger` that the claims talk
about: `modname`, `loglevel`, `outstream`, `propagate`, and the log-file pair
`filename` / `logfile.is_open()`.  Module names are modelled as `List Char`
(C++ `std::string`); log-file paths as Lean `String`. -/
structure LoggerState where
  modname : List Char
  loglevel : Int
  outstream : Option OStream
  propagate : Bool
  filename : String
  logfileOpen : Bool
deriving DecidableEq, Repr

/-- The root constructor `Logger::Logger(Private)`: name `""`, level
`WARNING`, no stream, `propagate = false`, no open file. -/
def rootLoggerState : LoggerState :=
  { modname := [], loglevel := WARNING, outstream := none,
    propagate := false, filename := "", logfileOpen := false }

/-- The non-root constructor `Logger::Logger(Private, const string&)`:
level `NOTSET`, no stream, `propagate = true`, no open file. -/
def newLoggerState (module : List Char) : LoggerState :=
  { modname := module, loglevel := NOTSET, outstream := none,
    propagate := true, filename := "", logfileOpen := false }

/-! ### Configuration setters -/

/-- `Logger::set_loglevel`: returns the previous level; unless the argument is
one of the sentinels `UNCHANGED` / `ROOT_DEBUG`, stores
`min(MAXLOG, max(MINLOG, abs(level)))`. -/
def set_loglevel (st : LoggerState) (level : Int) : LoggerState × Int :=
  let curlevel := st.loglevel
  if level ≠ UNCHANGED ∧ level ≠ ROOT_DEBUG then
    ({ st with loglevel := min MAXLOG (max MINLOG |level|) }, curlevel)
  else
    (st, curlevel)

/-- `Logger::set_streamer`: selects `cout`/`cerr`/`clog`/`nullptr` for
`STDOUT`/`STDERR`/`STDLOG`/`DEVNULL`; every other value (including the
sentinels) keeps the current stream.  Returns the previous stream. -/
def set_streamer (st : LoggerState) (streamval : Int) : LoggerState × Option OStream :=
  let curos := st.outstream
  let os :=
    if streamval = STDOUT then some OStream.cout
    else if streamval = STDERR then some OStream.cerr
    else if streamval = STDLOG then some OStream.clog
    else if streamval = DEVNULL then none
    else curos
  ({ st with outstream := os }, curos)

/-- `Logger::set_propagation`: stores the new mode, returns the previous. -/
def set_propagation (st : LoggerState) (mode : Bool) : LoggerState × Bool :=
  ({ st with propagate := mode }, st.propagate)

/-- `Logger::set_root_debug`: `set_loglevel(DEBUG); set_streamer(STDLOG)`. -/
def set_root_debug (st : LoggerState) : LoggerState :=
  (set_streamer (set_loglevel st DEBUG).1 STDLOG).1

/-! ### The emission walk (`Logger::logaux`)

`logaux` renders the record once and then walks the `parent` chain starting at
the originating node.  We model the chain as the explicit list
`[originating node, its parent, …, root]`. -/

/-- The nodes `Logger::logaux` actually visits: the walk takes nodes in order
and stops after the first node whose `propagate` flag is false (the root ends
the chain anyway because its `parent` is null). -/
def visitedChain : List LoggerState → List LoggerState
  | [] => []
  | st :: rest => if st.propagate then st :: visitedChain rest else [st]

/-- Lines `logaux` emits at one visited node: if `level >= loglevel`, one line
to the output stream when one is configured, plus one line to the log file
when one is open. -/
def linesAtNode (level : Int) (st : LoggerState) : Nat :=
  if st.loglevel ≤ level then
    (if st.outstream.isSome then 1 else 0) + (if st.logfileOpen then 1 else 0)
  else 0

/-- Total number of physical record lines a single `log` call emits along a
given ancestor chain. -/
def logauxLines (level : Int) (chain : List LoggerState) : Nat :=
  ((visitedChain chain).map (linesAtNode level)).sum

/-- A node's sink is "discard" when it has neither a configured stream nor an
open log file. -/
def sinkDiscard (st : LoggerState) : Bool :=
  st.outstream.isNone && !st.logfileOpen

/-- Stated from the spec's words, for comparison with `logauxLines`: one line
per visited node whose threshold is satisfied and whose sink is not discard. -/
def specLineCount (level : Int) (chain : List LoggerState) : Nat :=
  ((visitedChain chain).filter
    (fun st => decide (st.loglevel ≤ level) && !sinkDiscard st)).length

/-! ### The logger tree

A node owns its `LoggerState` and a child dictionary `dict` mapping a name to
a child node (`std::map<std::string, logwptr_t>`, here an association list).
The tree and the forest of children are defined mutually so that recursion
over them is structural. -/

mutual
inductive LTree where
  | node : LoggerState → LForest → LTree
inductive LForest where
  | nil : LForest
  | cons : List Char → LTree → LForest → LForest
end

def LTree.state : LTree → LoggerState
  | .node st _ => st

def LTree.children : LTree → LForest
  | .node _ ch => ch

/-- `dict.count(k) > 0` / `dict[k]` of `std::map`. -/
def lookupChild : LForest → List Char → Option LTree
  | .nil, _ => none
  | .cons k' t rest, k => if k' = k then some t else lookupChild rest k

/-- `dict[k] = v` of `std::map`: replace an existing entry or append. -/
def insertChild : LForest → List Char → LTree → LForest
  | .nil, k, t => .cons k t .nil
  | .cons k' t' rest, k, t =>
      if k' = k then .cons k t rest else .cons k' t' (insertChild rest k t)

/-! ### `string::find` -/

/-- Index of the first element satisfying `p`, if any. -/
def findIdxFrom (p : Char → Bool) : List Char → Option Nat
  | [] => none
  | c :: rest => if p c then some 0 else (findIdxFrom p rest).map (· + 1)

/-- `std::string::find(c, i)`: index of the first occurrence of `c` at or
after position `i`, or `none` (`string::npos`). -/
def strFind (m : List Char) (c : Char) (i : Nat) : Option Nat :=
  (findIdxFrom (fun x => x = c) (m.drop i)).map (fun j => i + j)

/-! ### The named-logger factory walk
(`Logger::get_logger(const string&, int, int)`)

The walk returns the updated tree, the list of child keys descended (the path
from the root to the node the call returns), and a flag recording whether the
`exit_loop > max_submod` ceiling was hit (in which case one error-level
message was logged through the node the walk stopped at, which is also the
node the call returns).

`fuel` is the number of loop iterations still allowed by the
`++exit_loop > max_submod` check, i.e. `max_submod` at the first iteration. -/

def glWalk (module : List Char) (level stream : Int) :
    Nat → Nat → LTree → LTree × List (List Char) × Bool
  | 0, _, t =>
    -- `++exit_loop > max_submod`: stop searching, log one error-level message
    -- through the current node and return it (the `pos`/`submod` computed by
    -- this iteration before the check are never used on this branch).
    (t, [], true)
  | fuel + 1, dotpos, t =>
    match strFind module '.' dotpos with
    | none =>
      -- `pos == string::npos`: `submod = module.substr(0, npos)` is the whole
      -- string; resolve/create it, then apply the level/stream overrides.
      let submod := module
      let child :=
        match lookupChild t.children submod with
        | some c => c
        | none => LTree.node (newLoggerState submod) LForest.nil
      let cst := (set_streamer (set_loglevel child.state level).1 stream).1
      let child' := LTree.node cst child.children
      (LTree.node t.state (insertChild t.children submod child'), [submod], false)
    | some p =>
      -- `submod = module.substr(0, pos)`: the *prefix* of the whole dotted
      -- name up to the next '.', not the single segment after `dotpos`.
      let submod := module.take p
      let child :=
        match lookupChild t.children submod with
        | some c => c
        | none => LTree.node (newLoggerState submod) LForest.nil
      let r := glWalk module level stream fuel (p + 1) child
      (LTree.node t.state (insertChild t.children submod r.1), submod :: r.2.1, r.2.2)

/-! ### The root factory (`Logger::get_logger(int, int)`) -/

/-- Process-wide state of the facility: the lazily created root tree plus the
`root_debug` / `max_submod` / `max_modlen` globals. -/
structure RootState where
  root : Option LTree
  root_debug : Bool
  max_submod : Nat
  max_modlen : Nat

/-- The state before the first `get_logger` call. -/
def initRootState : RootState :=
  { root := none, root_debug := false,
    max_submod := MAX_MODULE_SUBFIELDS, max_modlen := MODULE_NAME_SIZE }

/-- `Logger::get_logger(int level, int stream)`: on the creating call the root
is built by the default constructor and, only for the `ROOT_DEBUG` sentinel,
put into debug mode; on every later call `set_loglevel(level)` and
`set_streamer(stream)` are applied to the existing root.  Returns the updated
state together with the root node (the returned handle). -/
def get_logger_root (s : RootState) (level stream : Int) : RootState × LTree :=
  match s.root with
  | none =>
    if level = ROOT_DEBUG then
      let t := LTree.node (set_root_debug rootLoggerState) LForest.nil
      ({ s with
          root := some t
          root_debug := true
          max_submod := ROOT_DEBUG_MAX_MODULE_SUBFIELDS
          max_modlen := ROOT_DEBUG_MODULE_NAME_SIZE }, t)
    else
      let t := LTree.node rootLoggerState LForest.nil
      ({ s with root := some t }, t)
  | some t =>
    let st := (set_streamer (set_loglevel t.state level).1 stream).1
    let t' := LTree.node st t.children
    ({ s with root := some t' }, t')

/-- `Logger::get_logger(const string& module, int level, int stream)`: first
obtains the root (passing `ROOT_DEBUG` through, any other level as
`UNCHANGED`), then walks/creates the dotted path.  Returns the updated state,
the path of child keys from the root to the returned node, and the
ceiling-exceeded flag. -/
def get_logger (s : RootState) (module : List Char) (level stream : Int) :
    RootState × List (List Char) × Bool :=
  let root_level := if level = ROOT_DEBUG then level else UNCHANGED
  let r0 := get_logger_root s root_level UNCHANGED
  let r := glWalk module level stream r0.1.max_submod 0 r0.2
  ({ r0.1 with root := some r.1 }, r.2.1, r.2.2)

/-! ### Dotted names described by their segments

A dotted name is the '.'-join of its (dot-free) segments.  `cumKeysFrom`
describes the sequence of keys the factory walk uses: the cumulative
'.'-joined prefixes of the name. -/

/-- Join segments with '.' separators: `joinDots [A, B, C] = "A.B.C"`. -/
def joinDots : List (List Char) → List Char
  | [] => []
  | [s] => s
  | s :: s2 :: rest => s ++ '.' :: joinDots (s2 :: rest)

/-- The cumulative dotted prefixes of a segment list, each extending the
accumulated prefix `pre`: `cumKeysFrom "" [A,B,C] = ["A", "A.B", "A.B.C"]`. -/
def cumKeysFrom (pre : List Char) : List (List Char) → List (List Char)
  | [] => []
  | s :: rest => (pre ++ s) :: cumKeysFrom (pre ++ (s ++ ['.'])) rest

/-- The chain of brand-new nodes the walk builds below a freshly created node
with key `key` when the remaining segments are `segs`: each node carries its
cumulative key as `modname`, has exactly one child, and the last node has the
`level`/`stream` overrides applied (the code applies them only to the final
segment's node). -/
def freshChain (level stream : Int) : List Char → List (List Char) → LTree
  | key, [] =>
      LTree.node
        ((set_streamer (set_loglevel (newLoggerState key) level).1 stream).1)
        LForest.nil
  | key, s2 :: rest =>
      LTree.node (newLoggerState key)
        (LForest.cons (key ++ '.' :: s2)
          (freshChain level stream (key ++ '.' :: s2) rest) LForest.nil)

/-- Follow a key path from a node and check each step's node `modname` equals
the key it is stored under. -/
def pathModnames : LTree → List (List Char) → Bool
  | _, [] => true
  | t, k :: ks =>
    match lookupChild t.children k with
    | some c => (c.state.modname == k) && pathModnames c ks
    | none => false

/-- The default configuration of a freshly constructed non-root node:
`NOTSET` threshold, discard sink (no stream, no open file), `propagate`. -/
def isDefaultConfig (st : LoggerState) : Bool :=
  decide (st.loglevel = NOTSET) && st.outstream.isNone && st.propagate &&
    !st.logfileOpen && decide (st.filename = "")

/-- Follow a key path from a node and check every node along it has the
default configuration. -/
def pathDefaults : LTree → List (List Char) → Bool
  | _, [] => true
  | t, k :: ks =>
    match lookupChild t.children k with
    | some c => isDefaultConfig c.state && pathDefaults c ks
    | none => false

/-! ### The file-system model for `Logger::set_logfile`

`set_logfile` interacts with the file system through `realpath`, a
truncating-create (`ofstream::open(fname, ios::trunc)`), and an appending
open (`logfile.open(newfname, ios::app)`).  The model records, per path,
whether it resolves (`canon`), the contents of the file at a canonical path
(`content`), and whether creating / opening succeed. -/

structure FileSys where
  /-- `realpath`: the canonical absolute path a name resolves to, if any. -/
  canon : String → Option String
  /-- Contents of the file stored at a canonical path, as lines. -/
  content : String → List String
  /-- Whether `ofstream::open(fname, ios::trunc)` succeeds for the name. -/
  creatable : String → Bool
  /-- The canonical path a freshly created name resolves to. -/
  createdCanon : String → String
  /-- Whether `logfile.open(path, ios::app)` succeeds. -/
  openable : String → Bool

/-- `Logger::set_logfile(fname)` on a node `st` over file system `fs`.
Returns the updated file system, the updated node, and whether an error was
recorded (`errmsg`, reported afterwards through a self-referential `error`
call).  Faithful to the source: an empty or unresolvable-and-uncreatable
name yields an empty `newfname`; a missing file is first created with
truncation and re-resolved; nothing happens when `newfname` equals the
currently recorded `filename`; otherwise the old file is closed, the
recorded name cleared, and the new file (if any) opened in append mode. -/
def set_logfile (fs : FileSys) (st : LoggerState) (fname : String) :
    FileSys × LoggerState × Bool :=
  let r : FileSys × String × Bool :=
    if fname = "" then (fs, "", false)
    else
      match fs.canon fname with
      | some p => (fs, p, false)
      | none =>
        if fs.creatable fname then
          let c := fs.createdCanon fname
          let fs' : FileSys :=
            { fs with
              canon := fun q => if q = fname then some c else fs.canon q
              content := fun q => if q = c then [] else fs.content q }
          (fs', c, false)
        else (fs, "", true)
  let fs1 := r.1
  let newfname := r.2.1
  let err0 := r.2.2
  if newfname ≠ st.filename then
    let st1 := { st with logfileOpen := false, filename := "" }
    if newfname ≠ "" then
      if fs1.openable newfname then
        (fs1, { st1 with logfileOpen := true, filename := newfname }, err0)
      else (fs1, st1, true)
    else (fs1, st1, err0)
  else (fs1, st, err0)

/-! ### The unsynchronized root creation

In `Logger::get_logger(int, int)` the guard `mutex rootmutex;` is a
*function-local* variable: every calling thread constructs and locks its own
private mutex, so the `lock_guard` provides no mutual exclusion at all, and
the `if (not root_instance) { root_instance = make_shared<Logger>(...); }`
check-then-create on the shared `root_instance` is an unsynchronized race.
The model below lets two threads each perform the read of `root_instance`
and the conditional create/assign as separate interleavable steps, counting
how many `Logger` instances get constructed. -/

inductive RaceStep where
  | read1
  | read2
  | write1
  | write2
deriving DecidableEq, Repr

structure RaceState where
  root : Option Nat
  seen1 : Option (Option Nat)
  seen2 : Option (Option Nat)
  created : Nat
deriving DecidableEq, Repr

def raceStep (s : RaceState) : RaceStep → RaceState
  | .read1 => { s with seen1 := some s.root }
  | .read2 => { s with seen2 := some s.root }
  | .write1 =>
    if s.seen1 = some none then
      { s with root := some 1, created := s.created + 1 }
    else s
  | .write2 =>
    if s.seen2 = some none then
      { s with root := some 2, created := s.created + 1 }
    else s

/-- Run a schedule of interleaved steps from the cold state (no root yet). -/
def runRace (sched : List RaceStep) : RaceState :=
  sched.foldl raceStep ⟨none, none, none, 0⟩

/-! ### Concrete states used by the witness theorems -/

/-- A facility state whose root exists with no children yet. -/
def rootedState : RootState :=
  { initRootState with root := some (LTree.node rootLoggerState LForest.nil) }

/-- A node with both a configured stream and an open log file. -/
def bothTargetsNode : LoggerState :=
  { modname := [], loglevel := NOTSET, outstream := some OStream.cout,
    propagate := false, filename := "/abs/a.log", logfileOpen := true }

/-- A node whose only sink is an open log file and which propagates. -/
def fileOnlyNode : LoggerState :=
  { modname := ['M'], loglevel := NOTSET, outstream := none,
    propagate := true, filename := "/abs/m.log", logfileOpen := true }

/-- A root-like node writing to a stream. -/
def streamRootNode : LoggerState :=
  { modname := [], loglevel := WARNING, outstream := some OStream.clog,
    propagate := false, filename := "", logfileOpen := false }

/-- A node with the propagate flag cleared. -/
def stopNode : LoggerState :=
  { modname := ['M'], loglevel := NOTSET, outstream := none,
    propagate := false, filename := "", logfileOpen := false }

/-- A small file system: one existing file `log.txt` with prior content. -/
def witnessFS : FileSys :=
  { canon := fun p => if p = "log.txt" then some "/abs/log.txt" else none
    content := fun p => if p = "/abs/log.txt" then ["old line"] else []
    creatable := fun _ => true
    createdCanon := fun p => p
    openable := fun _ => true }

/-- A node that currently has `/abs/old.log` open. -/
def openFileNode : LoggerState :=
  { modname := ['M'], loglevel := INFO, outstream := some OStream.cerr,
    propagate := true, filename := "/abs/old.log", logfileOpen := true }

/-! ## Helper lemmas -/

theorem glWalk_zero (module : List Char) (level stream : Int) (dotpos : Nat) (t : LTree) :
    glWalk module level stream 0 dotpos t = (t, [], true) := rfl

theorem glWalk_succ_none (module : List Char) (level stream : Int) (fuel dotpos : Nat)
    (t : LTree) (h : strFind module '.' dotpos = none) :
    glWalk module level stream (fuel + 1) dotpos t =
      (let child :=
        match lookupChild t.children module with
        | some c => c
        | none => LTree.node (newLoggerState module) LForest.nil
       let cst := (set_streamer (set_loglevel child.state level).1 stream).1
       (LTree.node t.state
          (insertChild t.children module (LTree.node cst child.children)),
        [module], false)) := by
  rw [glWalk, h]

theorem glWalk_succ_some (module : List Char) (level stream : Int) (fuel dotpos p : Nat)
    (t : LTree) (h : strFind module '.' dotpos = some p) :
    glWalk module level stream (fuel + 1) dotpos t =
      (let submod := module.take p
       let child :=
        match lookupChild t.children submod with
        | some c => c
        | none => LTree.node (newLoggerState submod) LForest.nil
       let r := glWalk module level stream fuel (p + 1) child
       (LTree.node t.state (insertChild t.children submod r.1),
        submod :: r.2.1, r.2.2)) := by
  rw [glWalk, h]

theorem findIdxFrom_none (p : Char → Bool) (s : List Char) (h : ∀ c ∈ s, p c = false) :
    findIdxFrom p s = none := by
  induction s with
  | nil => rfl
  | cons c s ih =>
    have hc : p c = false := h c (by simp)
    simp [findIdxFrom, hc, ih fun x hx => h x (by simp [hx])]

theorem findIdxFrom_append (p : Char → Bool) (s l : List Char) (h : ∀ c ∈ s, p c = false) :
    findIdxFrom p (s ++ l) = (findIdxFrom p l).map (fun j => s.length + j) := by
  induction s with
  | nil =>
    rw [List.nil_append]
    cases h' : findIdxFrom p l <;> simp [h']
  | cons c s ih =>
    have hc : p c = false := h c (by simp)
    rw [List.cons_append]
    simp only [findIdxFrom, hc, Bool.false_eq_true, if_false,
      ih fun x hx => h x (by simp [hx])]
    cases findIdxFrom p l <;> (simp; try omega)

theorem strFind_split (pre rest : List Char) (c : Char) :
    strFind (pre ++ rest) c pre.length
      = (findIdxFrom (fun x => x = c) rest).map (fun j => pre.length + j) := by
  unfold strFind
  rw [List.drop_left]

theorem dotFree_false (s : List Char) (h : '.' ∉ s) :
    ∀ c ∈ s, (fun x => decide (x = '.')) c = false := by
  intro c hc
  simp only [decide_eq_false_iff_not]
  exact fun hcd => h (hcd ▸ hc)

theorem take_pre (pre s rest : List Char) :
    (pre ++ (s ++ rest)).take (pre.length + s.length) = pre ++ s := by
  have h1 : pre ++ (s ++ rest) = (pre ++ s) ++ rest := by simp
  rw [h1, ← List.length_append, List.take_left]

/-- The walk's visited keys on a dotted name given by dot-free segments: the
cumulative prefixes, capped by the remaining iteration budget; the ceiling
flag is set exactly when the budget is smaller than the number of segments. -/
theorem glWalk_keys (level stream : Int) (rest : List (List Char)) :
    ∀ (pre : List Char) (fuel : Nat) (t : LTree),
      rest ≠ [] → (∀ s ∈ rest, '.' ∉ s) →
      ((glWalk (pre ++ joinDots rest) level stream fuel pre.length t).2.1
          = cumKeysFrom pre (rest.take fuel) ∧
        (glWalk (pre ++ joinDots rest) level stream fuel pre.length t).2.2
          = decide (fuel < rest.length)) := by
  induction rest with
  | nil => intro _ _ _ h _; exact absurd rfl h
  | cons s rest2 ih =>
    intro pre fuel t _ hdf
    have hs : '.' ∉ s := hdf s (by simp)
    cases rest2 with
    | nil =>
      have hfind : strFind (pre ++ joinDots [s]) '.' pre.length = none := by
        rw [show joinDots [s] = s from rfl, strFind_split,
          findIdxFrom_none _ _ (dotFree_false s hs)]
        rfl
      cases fuel with
      | zero =>
        rw [glWalk_zero]
        simp [cumKeysFrom]
      | succ f =>
        rw [glWalk_succ_none _ _ _ _ _ _ hfind]
        simp [cumKeysFrom, joinDots]
    | cons s2 rest3 =>
      have hjoin : joinDots (s :: s2 :: rest3) = s ++ ('.' :: joinDots (s2 :: rest3)) := rfl
      have hfind : strFind (pre ++ joinDots (s :: s2 :: rest3)) '.' pre.length
          = some (pre.length + s.length) := by
        rw [hjoin, strFind_split,
          findIdxFrom_append _ _ _ (dotFree_false s hs)]
        rfl
      cases fuel with
      | zero =>
        rw [glWalk_zero]
        simp [cumKeysFrom]
      | succ f =>
        rw [glWalk_succ_some _ _ _ _ _ _ _ hfind]
        have htake : (pre ++ joinDots (s :: s2 :: rest3)).take (pre.length + s.length)
            = pre ++ s := by
          rw [hjoin]; exact take_pre pre s _
        have hmod : pre ++ joinDots (s :: s2 :: rest3)
            = (pre ++ (s ++ ['.'])) ++ joinDots (s2 :: rest3) := by
          rw [hjoin]; simp
        have hlen : pre.length + s.length + 1 = (pre ++ (s ++ ['.'])).length := by
          simp; omega
        have ihx := ih (pre ++ (s ++ ['.'])) f
          (match lookupChild t.children ((pre ++ joinDots (s :: s2 :: rest3)).take (pre.length + s.length)) with
            | some c => c
            | none => LTree.node (newLoggerState ((pre ++ joinDots (s :: s2 :: rest3)).take (pre.length + s.length))) LForest.nil)
          (by simp) (fun x hx => hdf x (by simp [hx]))
        rw [← hmod, ← hlen] at ihx
        simp only [htake] at ihx ⊢
        simp [cumKeysFrom, ihx.1, ihx.2, List.take_succ_cons, Nat.succ_lt_succ_iff]

/-- On a subtree where the first key is absent, the walk creates exactly the
fresh chain of nodes described by `freshChain` and hangs it under the current
node. -/
theorem glWalk_fresh (level stream : Int) (rest : List (List Char)) :
    ∀ (pre s1 : List Char) (fuel : Nat) (t : LTree),
      '.' ∉ s1 → (∀ s ∈ rest, '.' ∉ s) → rest.length < fuel →
      lookupChild t.children (pre ++ s1) = none →
      (glWalk (pre ++ joinDots (s1 :: rest)) level stream fuel pre.length t).1
        = LTree.node t.state
            (insertChild t.children (pre ++ s1)
              (freshChain level stream (pre ++ s1) rest)) := by
  induction rest with
  | nil =>
    intro pre s1 fuel t hs1 _ hfuel hmiss
    cases fuel with
    | zero => omega
    | succ f =>
      have hfind : strFind (pre ++ joinDots [s1]) '.' pre.length = none := by
        rw [show joinDots [s1] = s1 from rfl, strFind_split,
          findIdxFrom_none _ _ (dotFree_false s1 hs1)]
        rfl
      rw [glWalk_succ_none _ _ _ _ _ _ hfind]
      simp only [show joinDots [s1] = s1 from rfl, hmiss]
      rfl
  | cons s2 rest3 ih =>
    intro pre s1 fuel t hs1 hdf hfuel hmiss
    have hs2 : '.' ∉ s2 := hdf s2 (by simp)
    cases fuel with
    | zero => omega
    | succ f =>
      have hjoin : joinDots (s1 :: s2 :: rest3) = s1 ++ ('.' :: joinDots (s2 :: rest3)) := rfl
      have hfind : strFind (pre ++ joinDots (s1 :: s2 :: rest3)) '.' pre.length
          = some (pre.length + s1.length) := by
        rw [hjoin, strFind_split, findIdxFrom_append _ _ _ (dotFree_false s1 hs1)]
        rfl
      rw [glWalk_succ_some _ _ _ _ _ _ _ hfind]
      have htake : (pre ++ joinDots (s1 :: s2 :: rest3)).take (pre.length + s1.length)
          = pre ++ s1 := by
        rw [hjoin]; exact take_pre pre s1 _
      simp only [htake, hmiss]
      have hmod : pre ++ joinDots (s1 :: s2 :: rest3)
          = (pre ++ (s1 ++ ['.'])) ++ joinDots (s2 :: rest3) := by
        rw [hjoin]; simp
      have hlen : pre.length + s1.length + 1 = (pre ++ (s1 ++ ['.'])).length := by
        simp; omega
      have ihx := ih (pre ++ (s1 ++ ['.'])) s2 f
        (LTree.node (newLoggerState (pre ++ s1)) LForest.nil)
        hs2 (fun x hx => hdf x (by simp [hx])) (by simp at hfuel ⊢; omega)
        (by simp [LTree.children, lookupChild])
      rw [← hmod, ← hlen] at ihx
      have hk : pre ++ (s1 ++ ['.']) ++ s2 = (pre ++ s1) ++ '.' :: s2 := by simp
      rw [hk] at ihx
      simp only [ihx]
      rw [show freshChain level stream (pre ++ s1) (s2 :: rest3)
            = LTree.node (newLoggerState (pre ++ s1))
                (LForest.cons ((pre ++ s1) ++ '.' :: s2)
                  (freshChain level stream ((pre ++ s1) ++ '.' :: s2) rest3)
                  LForest.nil) from rfl]
      rfl

theorem set_loglevel_unchanged (st : LoggerState) : (set_loglevel st UNCHANGED).1 = st := by
  simp [set_loglevel, UNCHANGED, ROOT_DEBUG]

theorem set_streamer_unchanged (st : LoggerState) : (set_streamer st UNCHANGED).1 = st := by
  simp [set_streamer, UNCHANGED, STDOUT, STDERR, STDLOG, DEVNULL]

theorem config_modname (st : LoggerState) (level stream : Int) :
    ((set_streamer (set_loglevel st level).1 stream).1).modname = st.modname := by
  unfold set_loglevel set_streamer
  split <;> rfl

theorem LTree.eta (t : LTree) : LTree.node t.state t.children = t := by
  cases t; rfl

theorem freshChain_modname (level stream : Int) (segs : List (List Char)) (key : List Char) :
    (freshChain level stream key segs).state.modname = key := by
  cases segs with
  | nil => simp [freshChain, LTree.state, config_modname, newLoggerState]
  | cons _ _ => rfl

theorem lookupChild_insert : ∀ (ch : LForest) (k : List Char) (t : LTree),
    lookupChild (insertChild ch k t) k = some t
  | .nil, k, t => by simp [insertChild, lookupChild]
  | .cons k' t' rest, k, t => by
    by_cases h : k' = k
    · simp [insertChild, lookupChild, h]
    · simp [insertChild, lookupChild, h, lookupChild_insert rest k t]

theorem pathModnames_freshChain (level stream : Int) (segs : List (List Char)) :
    ∀ key, pathModnames (freshChain level stream key segs)
      (cumKeysFrom (key ++ ['.']) segs) = true := by
  induction segs with
  | nil => intro key; rfl
  | cons s2 rest ih =>
    intro key
    have hk : (key ++ ['.']) ++ s2 = key ++ '.' :: s2 := by simp
    rw [show cumKeysFrom (key ++ ['.']) (s2 :: rest)
          = ((key ++ ['.']) ++ s2) :: cumKeysFrom ((key ++ ['.']) ++ (s2 ++ ['.'])) rest
        from rfl, hk]
    rw [show freshChain level stream key (s2 :: rest)
          = LTree.node (newLoggerState key)
              (LForest.cons (key ++ '.' :: s2)
                (freshChain level stream (key ++ '.' :: s2) rest) LForest.nil)
        from rfl]
    have ihx := ih (key ++ '.' :: s2)
    have hk3 : (key ++ '.' :: s2) ++ ['.'] = key ++ '.' :: (s2 ++ ['.']) := by simp
    rw [hk3] at ihx
    simp [pathModnames, LTree.children, lookupChild, freshChain_modname, ihx]

theorem isDefaultConfig_new (key : List Char) : isDefaultConfig (newLoggerState key) = true := by
  simp [isDefaultConfig, newLoggerState, NOTSET]

theorem freshChain_unchanged_state (segs : List (List Char)) (key : List Char) :
    (freshChain UNCHANGED UNCHANGED key segs).state = newLoggerState key := by
  cases segs with
  | nil => simp [freshChain, LTree.state, set_loglevel_unchanged, set_streamer_unchanged]
  | cons _ _ => rfl

theorem pathDefaults_freshChain (segs : List (List Char)) :
    ∀ key, pathDefaults (freshChain UNCHANGED UNCHANGED key segs)
      (cumKeysFrom (key ++ ['.']) segs) = true := by
  induction segs with
  | nil => intro key; rfl
  | cons s2 rest ih =>
    intro key
    have hk : (key ++ ['.']) ++ s2 = key ++ '.' :: s2 := by simp
    rw [show cumKeysFrom (key ++ ['.']) (s2 :: rest)
          = ((key ++ ['.']) ++ s2) :: cumKeysFrom ((key ++ ['.']) ++ (s2 ++ ['.'])) rest
        from rfl, hk]
    rw [show freshChain UNCHANGED UNCHANGED key (s2 :: rest)
          = LTree.node (newLoggerState key)
              (LForest.cons (key ++ '.' :: s2)
                (freshChain UNCHANGED UNCHANGED (key ++ '.' :: s2) rest) LForest.nil)
        from rfl]
    have ihx := ih (key ++ '.' :: s2)
    have hk3 : (key ++ '.' :: s2) ++ ['.'] = key ++ '.' :: (s2 ++ ['.']) := by simp
    rw [hk3] at ihx
    simp [pathDefaults, LTree.children, lookupChild, ihx,
      freshChain_unchanged_state, isDefaultConfig_new]

theorem get_logger_root_unchanged (s : RootState) (t : LTree) (h : s.root = some t) :
    get_logger_root s UNCHANGED UNCHANGED = ({ s with root := some t }, t) := by
  unfold get_logger_root
  rw [h]
  simp [set_loglevel_unchanged, set_streamer_unchanged, LTree.eta]

theorem get_logger_root_max (s : RootState) (level stream : Int) (h : level ≠ ROOT_DEBUG) :
    (get_logger_root s level stream).1.max_submod = s.max_submod := by
  unfold get_logger_root
  cases hr : s.root
  · rw [if_neg h]
  · rfl

theorem cumKeysFrom_length (l : List (List Char)) :
    ∀ pre, (cumKeysFrom pre l).length = l.length := by
  induction l with
  | nil => intro pre; rfl
  | cons s rest ih => intro pre; simp [cumKeysFrom, ih]

theorem get_logger_reduce (s : RootState) (t : LTree) (module : List Char)
    (level stream : Int) (hroot : s.root = some t) (hlevel : level ≠ ROOT_DEBUG) :
    get_logger s module level stream
      = ({ s with root := some (glWalk module level stream s.max_submod 0 t).1 },
         (glWalk module level stream s.max_submod 0 t).2.1,
         (glWalk module level stream s.max_submod 0 t).2.2) := by
  simp only [get_logger]
  rw [if_neg hlevel, get_logger_root_unchanged s t hroot]

theorem get_logger_generic (s : RootState) (module : List Char) (level stream : Int)
    (hlevel : level ≠ ROOT_DEBUG) :
    (get_logger s module level stream).2
      = ((glWalk module level stream s.max_submod 0
            (get_logger_root s UNCHANGED UNCHANGED).2).2.1,
         (glWalk module level stream s.max_submod 0
            (get_logger_root s UNCHANGED UNCHANGED).2).2.2) := by
  simp only [get_logger]
  rw [if_neg hlevel, get_logger_root_max s UNCHANGED UNCHANGED (by decide)]

theorem linesAtNode_single (level : Int) (st : LoggerState)
    (h : ¬(st.outstream.isSome = true ∧ st.logfileOpen = true)) :
    linesAtNode level st
      = if decide (st.loglevel ≤ level) && !sinkDiscard st then 1 else 0 := by
  unfold linesAtNode sinkDiscard
  by_cases hle : st.loglevel ≤ level <;>
    cases hos : st.outstream <;> cases hlf : st.logfileOpen <;>
      simp_all

theorem lines_sum_eq_filter_length (level : Int) (l : List LoggerState)
    (h : ∀ st ∈ l, ¬(st.outstream.isSome = true ∧ st.logfileOpen = true)) :
    (l.map (linesAtNode level)).sum
      = (l.filter (fun st => decide (st.loglevel ≤ level) && !sinkDiscard st)).length := by
  induction l with
  | nil => rfl
  | cons st rest ih =>
    rw [List.map_cons, List.sum_cons, linesAtNode_single level st (h st (by simp)),
      ih (fun x hx => h x (by simp [hx]))]
    by_cases hc : (decide (st.loglevel ≤ level) && !sinkDiscard st) = true
    · simp [List.filter_cons, hc, Nat.add_comm]
    · simp [List.filter_cons, hc]

theorem visitedChain_mem (chain : List LoggerState) :
    ∀ st ∈ visitedChain chain, st ∈ chain := by
  induction chain with
  | nil => simp [visitedChain]
  | cons x rest ih =>
    intro st hst
    unfold visitedChain at hst
    by_cases hp : x.propagate
    · rw [if_pos hp] at hst
      rcases List.mem_cons.mp hst with h1 | h1
      · simp [h1]
      · exact List.mem_cons_of_mem x (ih st h1)
    · rw [if_neg hp] at hst
      simp at hst
      simp [hst]

theorem set_loglevel_id_of_sentinel (st : LoggerState) (level : Int)
    (h : level = UNCHANGED ∨ level = ROOT_DEBUG) : (set_loglevel st level).1 = st := by
  unfold set_loglevel
  rw [if_neg]
  intro hcon
  rcases h with h | h
  · exact hcon.1 h
  · exact hcon.2 h

theorem set_loglevel_stores (st : LoggerState) (level : Int)
    (h1 : level ≠ UNCHANGED) (h2 : level ≠ ROOT_DEBUG) :
    (set_loglevel st level).1.loglevel = min CRITICAL |level| := by
  unfold set_loglevel
  rw [if_pos ⟨h1, h2⟩]
  show min MAXLOG (max MINLOG |level|) = min CRITICAL |level|
  rw [max_eq_right (by simp [MINLOG, NOTSET])]
  rfl

theorem set_streamer_keeps_loglevel (st : LoggerState) (v : Int) :
    (set_streamer st v).1.loglevel = st.loglevel := rfl

theorem set_streamer_stdout (st : LoggerState) :
    (set_streamer st STDOUT).1.outstream = some OStream.cout := by
  simp [set_streamer, STDOUT]

/-! ## Claim theorems -/

/-- Claim C1, counterexample: resolving "A.B.C" does *not* store the nodes
under the single-segment keys "A", "B", "C".  Because the code computes
`submod = module.substr(0, pos)` (prefix from position 0, not from `dotpos`),
the keys actually used are the cumulative prefixes "A", "A.B", "A.B.C". -/
theorem get_logger_single_segment_cex :
    (get_logger initRootState ['A', '.', 'B', '.', 'C'] UNCHANGED UNCHANGED).2.1
        ≠ [['A'], ['B'], ['C']] ∧
    (get_logger initRootState ['A', '.', 'B', '.', 'C'] UNCHANGED UNCHANGED).2.1
        = [['A'], ['A', '.', 'B'], ['A', '.', 'B', '.', 'C']] := by
  decide

/-- Claim C1 (amended): for every dotted name (given by its dot-free
segments), `get_logger` walks the tree one level per segment, but the key a
node is stored under in its parent's child map — and the `modname` of every
node the call creates — is the *cumulative dotted prefix* of the name up to
that segment ("A", "A.B", "A.B.C"), not the single segment. -/
theorem get_logger_cumulative_prefix_keys
    (s : RootState) (t : LTree) (s1 : List Char) (rest : List (List Char))
    (level stream : Int)
    (hroot : s.root = some t) (hlevel : level ≠ ROOT_DEBUG)
    (hdf : ∀ x ∈ s1 :: rest, '.' ∉ x)
    (hlen : (s1 :: rest).length ≤ s.max_submod)
    (hfresh : lookupChild t.children s1 = none) :
    (get_logger s (joinDots (s1 :: rest)) level stream).2.1
        = cumKeysFrom [] (s1 :: rest) ∧
    (get_logger s (joinDots (s1 :: rest)) level stream).2.2 = false ∧
    ∀ u, (get_logger s (joinDots (s1 :: rest)) level stream).1.root = some u →
      pathModnames u (cumKeysFrom [] (s1 :: rest)) = true := by
  rw [get_logger_reduce s t (joinDots (s1 :: rest)) level stream hroot hlevel]
  have hkeys := glWalk_keys level stream (s1 :: rest) [] s.max_submod t (by simp) hdf
  have hfr := glWalk_fresh level stream rest [] s1 s.max_submod t
    (hdf s1 (by simp)) (fun x hx => hdf x (by simp [hx]))
    (by simp at hlen ⊢; omega) (by simpa using hfresh)
  simp only [List.nil_append, List.length_nil] at hkeys hfr
  rw [List.take_of_length_le hlen] at hkeys
  refine ⟨hkeys.1, ?_, ?_⟩
  · rw [hkeys.2]
    simp only [decide_eq_false_iff_not]
    omega
  · intro u hu
    have hu2 : u = (glWalk (joinDots (s1 :: rest)) level stream s.max_submod 0 t).1 :=
      (Option.some.inj hu).symm
    subst hu2
    rw [hfr]
    rw [show cumKeysFrom [] (s1 :: rest)
          = ([] ++ s1) :: cumKeysFrom ([] ++ (s1 ++ ['.'])) rest from rfl]
    simp only [List.nil_append]
    unfold pathModnames
    rw [show (LTree.node t.state (insertChild t.children s1
          (freshChain level stream s1 rest))).children
        = insertChild t.children s1 (freshChain level stream s1 rest) from rfl]
    rw [lookupChild_insert]
    simp [freshChain_modname, pathModnames_freshChain]

/-- Claim C1 witness: the amended theorem applied to the fresh name "A.B" on a
rooted state. -/
theorem get_logger_cumulative_prefix_keys_witness :
    (get_logger rootedState (joinDots [['A'], ['B']]) UNCHANGED UNCHANGED).2.1
        = cumKeysFrom [] [['A'], ['B']] ∧
    (get_logger rootedState (joinDots [['A'], ['B']]) UNCHANGED UNCHANGED).2.2 = false ∧
    ∀ u, (get_logger rootedState (joinDots [['A'], ['B']]) UNCHANGED UNCHANGED).1.root = some u →
      pathModnames u (cumKeysFrom [] [['A'], ['B']]) = true :=
  get_logger_cumulative_prefix_keys rootedState (LTree.node rootLoggerState LForest.nil)
    ['A'] [['B']] UNCHANGED UNCHANGED rfl (by decide) (by decide) (by decide) rfl

/-- Claim C2, counterexample: on the *first* (root-creating) call the
non-sentinel overrides `ERROR` / `STDOUT` are *not* applied — the root keeps
the constructor defaults `WARNING` and no stream, because only the `else`
branch of the factory applies `set_loglevel`/`set_streamer`. -/
theorem get_logger_root_first_call_cex :
    (get_logger_root initRootState ERROR STDOUT).2.state.loglevel = WARNING ∧
    WARNING ≠ ERROR ∧
    (get_logger_root initRootState ERROR STDOUT).2.state.outstream = none := by
  decide

/-- Claim C2 (amended): the root factory always returns the stored singleton
root; threshold/stream overrides are applied only on calls made *after* the
root exists (with `UNCHANGED` leaving each setting untouched); the creating
call itself ignores them and builds the root with its constructor defaults,
except for the `ROOT_DEBUG` sentinel, which puts the new root into debug mode
(threshold `DEBUG`, stream `clog`). -/
theorem get_logger_root_singleton_overrides (s : RootState) (level stream : Int) :
    (get_logger_root s level stream).1.root = some (get_logger_root s level stream).2 ∧
    (s.root = none → level ≠ ROOT_DEBUG →
      (get_logger_root s level stream).2.state = rootLoggerState) ∧
    (s.root = none → level = ROOT_DEBUG →
      (get_logger_root s level stream).2.state.loglevel = DEBUG ∧
      (get_logger_root s level stream).2.state.outstream = some OStream.clog) ∧
    (∀ t, s.root = some t → level ≠ UNCHANGED → level ≠ ROOT_DEBUG →
      (get_logger_root s level stream).2.state.loglevel = min CRITICAL |level|) ∧
    (∀ t, s.root = some t → level = UNCHANGED →
      (get_logger_root s level stream).2.state.loglevel = t.state.loglevel) ∧
    (∀ t, s.root = some t → stream = STDOUT →
      (get_logger_root s level stream).2.state.outstream = some OStream.cout) ∧
    (∀ t, s.root = some t → stream = UNCHANGED →
      (get_logger_root s level stream).2.state.outstream = t.state.outstream) := by
  cases hr : s.root with
  | none =>
    unfold get_logger_root
    rw [hr]
    by_cases hd : level = ROOT_DEBUG
    · rw [if_pos hd]
      exact ⟨rfl, fun _ hnd => absurd hd hnd,
        fun _ _ => ⟨(by decide : (set_root_debug rootLoggerState).loglevel = DEBUG),
          (by decide : (set_root_debug rootLoggerState).outstream = some OStream.clog)⟩,
        fun t ht => absurd ht (by simp), fun t ht => absurd ht (by simp),
        fun t ht => absurd ht (by simp), fun t ht => absurd ht (by simp)⟩
    · rw [if_neg hd]
      exact ⟨rfl, fun _ _ => rfl, fun _ hd2 => absurd hd2 hd,
        fun t ht => absurd ht (by simp), fun t ht => absurd ht (by simp),
        fun t ht => absurd ht (by simp), fun t ht => absurd ht (by simp)⟩
  | some t0 =>
    unfold get_logger_root
    rw [hr]
    refine ⟨rfl, fun h => absurd h (by simp), fun h => absurd h (by simp), ?_, ?_, ?_, ?_⟩ <;>
        intro t ht <;> have ht2 : t = t0 := (Option.some.inj ht).symm <;> subst ht2
    · intro h1 h2
      show ((set_streamer (set_loglevel t.state level).1 stream).1).loglevel = _
      rw [set_streamer_keeps_loglevel, set_loglevel_stores t.state level h1 h2]
    · intro h1
      show ((set_streamer (set_loglevel t.state level).1 stream).1).loglevel = _
      rw [set_streamer_keeps_loglevel, set_loglevel_id_of_sentinel t.state level (Or.inl h1)]
    · intro h1
      subst h1
      show ((set_streamer (set_loglevel t.state level).1 STDOUT).1).outstream = _
      rw [set_streamer_stdout]
    · intro h1
      subst h1
      show ((set_streamer (set_loglevel t.state level).1 UNCHANGED).1).outstream = _
      rw [set_streamer_unchanged]
      show (set_loglevel t.state level).1.outstream = _
      unfold set_loglevel
      split <;> rfl

/-- Claim C2 witness: with an existing root, `ERROR`/`STDOUT` overrides are
applied on the call. -/
theorem get_logger_root_singleton_overrides_witness :
    (get_logger_root rootedState ERROR STDOUT).2.state.loglevel = min CRITICAL |ERROR| ∧
    (get_logger_root rootedState ERROR STDOUT).2.state.outstream = some OStream.cout :=
  ⟨(get_logger_root_singleton_overrides rootedState ERROR STDOUT).2.2.2.1
      (LTree.node rootLoggerState LForest.nil) rfl (by decide) (by decide),
   (get_logger_root_singleton_overrides rootedState ERROR STDOUT).2.2.2.2.2.1
      (LTree.node rootLoggerState LForest.nil) rfl rfl⟩

/-- Claim C3, counterexample: `set_loglevel` takes `abs(level)` *before*
clamping, so the non-sentinel negative argument `-3` stores `3`, not the
claimed clamp-to-`NOTSET`; and `ROOT_DEBUG` (`-2`), although distinct from
the `UNCHANGED` sentinel, also leaves the threshold untouched instead of
clamping it. -/
theorem set_loglevel_clamp_cex :
    (set_loglevel rootLoggerState (-3)).1.loglevel = 3 ∧
    min MAXLOG (max MINLOG (-3 : Int)) = NOTSET ∧
    (3 : Int) ≠ NOTSET ∧
    (set_loglevel rootLoggerState ROOT_DEBUG).1.loglevel = rootLoggerState.loglevel ∧
    rootLoggerState.loglevel ≠ min MAXLOG (max MINLOG ROOT_DEBUG) := by
  decide

/-- Claim C3 (amended): `set_loglevel` returns the prior threshold; both
sentinels `UNCHANGED` (-1) and `ROOT_DEBUG` (-2) leave the stored threshold
(and the whole node) unmodified; for every other argument the stored
threshold becomes `min(CRITICAL, |level|)`, which always lies in
[`NOTSET`, `CRITICAL`], and no other field changes. -/
theorem set_loglevel_abs_clamp (st : LoggerState) (level : Int) :
    (set_loglevel st level).2 = st.loglevel ∧
    ((level = UNCHANGED ∨ level = ROOT_DEBUG) → (set_loglevel st level).1 = st) ∧
    (level ≠ UNCHANGED → level ≠ ROOT_DEBUG →
      (set_loglevel st level).1.loglevel = min CRITICAL |level| ∧
      NOTSET ≤ (set_loglevel st level).1.loglevel ∧
      (set_loglevel st level).1.loglevel ≤ CRITICAL ∧
      (set_loglevel st level).1.modname = st.modname ∧
      (set_loglevel st level).1.outstream = st.outstream ∧
      (set_loglevel st level).1.propagate = st.propagate) := by
  refine ⟨by unfold set_loglevel; split <;> rfl,
    set_loglevel_id_of_sentinel st level, ?_⟩
  intro h1 h2
  refine ⟨set_loglevel_stores st level h1 h2, ?_, ?_, ?_, ?_, ?_⟩
  · rw [set_loglevel_stores st level h1 h2]
    exact le_min (by decide) (abs_nonneg level)
  · rw [set_loglevel_stores st level h1 h2]
    exact min_le_left _ _
  · show (set_loglevel st level).1.modname = st.modname
    unfold set_loglevel; split <;> rfl
  · show (set_loglevel st level).1.outstream = st.outstream
    unfold set_loglevel; split <;> rfl
  · show (set_loglevel st level).1.propagate = st.propagate
    unfold set_loglevel; split <;> rfl

/-- Claim C3 witness: the amended theorem at level 9 (clamped to 5). -/
theorem set_loglevel_abs_clamp_witness :
    (set_loglevel rootLoggerState 9).2 = rootLoggerState.loglevel ∧
    (set_loglevel rootLoggerState 9).1.loglevel = min CRITICAL |(9 : Int)| :=
  ⟨(set_loglevel_abs_clamp rootLoggerState 9).1,
   ((set_loglevel_abs_clamp rootLoggerState 9).2.2 (by decide) (by decide)).1⟩

/-- Claim C4, counterexample: a visited node whose threshold is satisfied and
whose sink is not discard can emit *two* physical record lines, not exactly
one — the code writes one line to the output stream *and* one line to the log
file when both are active on the same node. -/
theorem logaux_both_targets_cex :
    logauxLines ERROR [bothTargetsNode] = 2 ∧
    specLineCount ERROR [bothTargetsNode] = 1 := by
  decide

/-- Claim C4 (amended): provided no visited node has a configured stream and
an open log file at the same time, the number of physical record lines a
`log(level, ...)` call emits equals the number of visited nodes (the
originating node and its ancestors up to the first non-propagating node)
whose threshold satisfies `level >= threshold` and whose sink is not discard;
a node with both targets active writes one line per target (two in total). -/
theorem logaux_single_line_per_node (level : Int) (chain : List LoggerState)
    (h : ∀ st ∈ chain, ¬(st.outstream.isSome = true ∧ st.logfileOpen = true)) :
    logauxLines level chain = specLineCount level chain :=
  lines_sum_eq_filter_length level (visitedChain chain)
    (fun st hst => h st (visitedChain_mem chain st hst))

/-- Claim C4 witness: a file-sink node propagating to a stream-sink root emits
exactly one line per satisfied non-discard node. -/
theorem logaux_single_line_per_node_witness :
    logauxLines ERROR [fileOnlyNode, streamRootNode]
      = specLineCount ERROR [fileOnlyNode, streamRootNode] :=
  logaux_single_line_per_node ERROR [fileOnlyNode, streamRootNode] (by decide)

/-- Claim C5 (confirmed): when the number of dot-free segments of a dotted
name exceeds the `max_submod` ceiling, the walk stops descending after
exactly `max_submod` levels: the ceiling flag (modelling the single
error-level message the code logs through the node the walk stopped at,
which is also the node the call returns) is set, and the returned node is the
deepest resolved one — the node whose key path is the first `max_submod`
cumulative prefixes; the function returns normally rather than raising. -/
theorem get_logger_segment_ceiling
    (s : RootState) (segs : List (List Char)) (level stream : Int)
    (hne : segs ≠ []) (hdf : ∀ x ∈ segs, '.' ∉ x)
    (hlevel : level ≠ ROOT_DEBUG)
    (hover : s.max_submod < segs.length) :
    (get_logger s (joinDots segs) level stream).2.2 = true ∧
    (get_logger s (joinDots segs) level stream).2.1
      = cumKeysFrom [] (segs.take s.max_submod) ∧
    ((get_logger s (joinDots segs) level stream).2.1).length = s.max_submod := by
  have hgen := get_logger_generic s (joinDots segs) level stream hlevel
  have h1 : (get_logger s (joinDots segs) level stream).2.1
      = (glWalk (joinDots segs) level stream s.max_submod 0
          (get_logger_root s UNCHANGED UNCHANGED).2).2.1 := by
    rw [hgen]
  have h2 : (get_logger s (joinDots segs) level stream).2.2
      = (glWalk (joinDots segs) level stream s.max_submod 0
          (get_logger_root s UNCHANGED UNCHANGED).2).2.2 := by
    rw [hgen]
  have hkeys := glWalk_keys level stream segs [] s.max_submod
    (get_logger_root s UNCHANGED UNCHANGED).2 hne hdf
  simp only [List.nil_append, List.length_nil] at hkeys
  refine ⟨?_, ?_, ?_⟩
  · rw [h2, hkeys.2]
    simp [hover]
  · rw [h1, hkeys.1]
  · rw [h1, hkeys.1, cumKeysFrom_length, List.length_take]
    omega

/-- Claim C5 witness: a 25-segment name against the default ceiling of 24. -/
theorem get_logger_segment_ceiling_witness :
    (get_logger initRootState (joinDots (List.replicate 25 ['x'])) UNCHANGED UNCHANGED).2.2
        = true ∧
    (get_logger initRootState (joinDots (List.replicate 25 ['x'])) UNCHANGED UNCHANGED).2.1
        = cumKeysFrom [] ((List.replicate 25 ['x']).take initRootState.max_submod) ∧
    ((get_logger initRootState (joinDots (List.replicate 25 ['x'])) UNCHANGED UNCHANGED).2.1).length
        = initRootState.max_submod :=
  get_logger_segment_ceiling initRootState (List.replicate 25 ['x']) UNCHANGED UNCHANGED
    (by decide) (by decide) (by decide) (by decide)

/-- Claim C6 (confirmed): if every node strictly below `M` on the ancestor
chain propagates and `M` does not, the emission walk visits exactly the nodes
up to and including `M` and stops — nothing is ever written to the sink of
any node strictly above `M`, whatever the severity. -/
theorem logaux_propagation_stop (level : Int) (pre post : List LoggerState) (M : LoggerState)
    (hpre : ∀ st ∈ pre, st.propagate = true) (hM : M.propagate = false) :
    visitedChain (pre ++ M :: post) = pre ++ [M] ∧
    logauxLines level (pre ++ M :: post) = logauxLines level (pre ++ [M]) := by
  have hv : ∀ (q : List LoggerState), (∀ st ∈ q, st.propagate = true) →
      ∀ rest, visitedChain (q ++ M :: rest) = q ++ [M] := by
    intro q hq
    induction q with
    | nil => intro rest; simp [visitedChain, hM]
    | cons x xs ih =>
      intro rest
      have hx := hq x (by simp)
      simp only [List.cons_append, visitedChain, hx, if_true, List.append_eq]
      rw [ih (fun y hy => hq y (by simp [hy])) rest]
  have h1 := hv pre hpre post
  have h2 : visitedChain (pre ++ [M]) = pre ++ [M] := by
    have := hv pre hpre []
    simpa using this
  exact ⟨h1, by unfold logauxLines; rw [h1, h2]⟩

/-- Claim C6 witness: a propagating file node below a stopping node above a
root — the root is never visited. -/
theorem logaux_propagation_stop_witness :
    visitedChain ([fileOnlyNode] ++ stopNode :: [streamRootNode])
        = [fileOnlyNode] ++ [stopNode] ∧
    logauxLines CRITICAL ([fileOnlyNode] ++ stopNode :: [streamRootNode])
        = logauxLines CRITICAL ([fileOnlyNode] ++ [stopNode]) :=
  logaux_propagation_stop CRITICAL [fileOnlyNode] [streamRootNode] stopNode
    (by decide) (by decide)

/-- Claim C7 (confirmed): for a path that resolves (`realpath` succeeds),
calling `set_logfile` twice in a row with the same path is idempotent — the
second call is a complete no-op (`newfname == filename` short-circuits), the
file system is never modified (in particular the existing content is not
truncated: the truncating create runs only when `realpath` fails), and after
the calls the node has exactly its one handle open on the canonical path. -/
theorem set_logfile_idempotent (fs : FileSys) (st : LoggerState) (P c : String)
    (hP : P ≠ "") (hc : fs.canon P = some c) (hcne : c ≠ "")
    (hopen : fs.openable c = true)
    (hinv : st.logfileOpen = true ∨ st.filename = "") :
    set_logfile (set_logfile fs st P).1 (set_logfile fs st P).2.1 P
        = set_logfile fs st P ∧
    (set_logfile fs st P).1 = fs ∧
    (set_logfile fs st P).2.1.logfileOpen = true ∧
    (set_logfile fs st P).2.1.filename = c := by
  have hstep : ∀ (q : LoggerState), set_logfile fs q P
      = (if c ≠ q.filename then
          (fs, { q with logfileOpen := true, filename := c }, false)
         else (fs, q, false)) := by
    intro q
    unfold set_logfile
    rw [if_neg hP, hc]
    by_cases hq : c ≠ q.filename
    · rw [if_pos hq, if_pos hcne, if_pos hopen, if_pos hq]
    · rw [if_neg hq, if_neg hq]
  by_cases hq : c ≠ st.filename
  · have h1 : set_logfile fs st P
        = (fs, { st with logfileOpen := true, filename := c }, false) := by
      rw [hstep st, if_pos hq]
    rw [h1]
    refine ⟨?_, rfl, rfl, rfl⟩
    rw [hstep { st with logfileOpen := true, filename := c }]
    rw [if_neg (by simp)]
  · have hfn : st.filename = c := by
      by_contra hcon
      exact hq (fun h => hcon h.symm)
    have hop : st.logfileOpen = true := by
      rcases hinv with h | h
      · exact h
      · exact absurd (h ▸ hfn) (Ne.symm hcne)
    have h1 : set_logfile fs st P = (fs, st, false) := by
      rw [hstep st, if_neg hq]
    rw [h1]
    exact ⟨by rw [hstep st, if_neg hq], rfl, hop, hfn⟩

/-- Claim C7 witness: targeting the existing file `log.txt` twice. -/
theorem set_logfile_idempotent_witness :
    set_logfile (set_logfile witnessFS rootLoggerState "log.txt").1
        (set_logfile witnessFS rootLoggerState "log.txt").2.1 "log.txt"
      = set_logfile witnessFS rootLoggerState "log.txt" ∧
    (set_logfile witnessFS rootLoggerState "log.txt").1 = witnessFS ∧
    (set_logfile witnessFS rootLoggerState "log.txt").2.1.logfileOpen = true ∧
    (set_logfile witnessFS rootLoggerState "log.txt").2.1.filename = "/abs/log.txt" :=
  set_logfile_idempotent witnessFS rootLoggerState "log.txt" "/abs/log.txt"
    (by decide) (by decide) (by decide) (by decide) (Or.inr rfl)

/-- Claim C8 (confirmed): requesting a dotted name none of whose chain exists
any more (the first key is absent from the root's child map, as after a full
prune) rebuilds every node of the chain from the non-root constructor: with
the sentinel (default) override arguments, every node on the returned path
has threshold `NOTSET`, no stream, no open file and `propagate = true`,
whatever configuration the pruned nodes used to carry. -/
theorem get_logger_recreated_defaults
    (s : RootState) (t : LTree) (s1 : List Char) (rest : List (List Char))
    (hroot : s.root = some t)
    (hdf : ∀ x ∈ s1 :: rest, '.' ∉ x)
    (hlen : (s1 :: rest).length ≤ s.max_submod)
    (hfresh : lookupChild t.children s1 = none) :
    (get_logger s (joinDots (s1 :: rest)) UNCHANGED UNCHANGED).2.1
        = cumKeysFrom [] (s1 :: rest) ∧
    ∀ u, (get_logger s (joinDots (s1 :: rest)) UNCHANGED UNCHANGED).1.root = some u →
      pathDefaults u (cumKeysFrom [] (s1 :: rest)) = true := by
  rw [get_logger_reduce s t (joinDots (s1 :: rest)) UNCHANGED UNCHANGED hroot (by decide)]
  have hkeys := glWalk_keys UNCHANGED UNCHANGED (s1 :: rest) [] s.max_submod t (by simp) hdf
  have hfr := glWalk_fresh UNCHANGED UNCHANGED rest [] s1 s.max_submod t
    (hdf s1 (by simp)) (fun x hx => hdf x (by simp [hx]))
    (by simp at hlen ⊢; omega) (by simpa using hfresh)
  simp only [List.nil_append, List.length_nil] at hkeys hfr
  rw [List.take_of_length_le hlen] at hkeys
  refine ⟨hkeys.1, ?_⟩
  intro u hu
  have hu2 : u = (glWalk (joinDots (s1 :: rest)) UNCHANGED UNCHANGED s.max_submod 0 t).1 :=
    (Option.some.inj hu).symm
  subst hu2
  rw [hfr]
  rw [show cumKeysFrom [] (s1 :: rest)
        = ([] ++ s1) :: cumKeysFrom ([] ++ (s1 ++ ['.'])) rest from rfl]
  simp only [List.nil_append]
  unfold pathDefaults
  rw [show (LTree.node t.state (insertChild t.children s1
        (freshChain UNCHANGED UNCHANGED s1 rest))).children
      = insertChild t.children s1 (freshChain UNCHANGED UNCHANGED s1 rest) from rfl]
  rw [lookupChild_insert]
  simp [freshChain_unchanged_state, isDefaultConfig_new, pathDefaults_freshChain]

/-- Claim C8 witness: recreating "T.U" on a rooted state with no children. -/
theorem get_logger_recreated_defaults_witness :
    (get_logger rootedState (joinDots [['T'], ['U']]) UNCHANGED UNCHANGED).2.1
        = cumKeysFrom [] [['T'], ['U']] ∧
    ∀ u, (get_logger rootedState (joinDots [['T'], ['U']]) UNCHANGED UNCHANGED).1.root = some u →
      pathDefaults u (cumKeysFrom [] [['T'], ['U']]) = true :=
  get_logger_recreated_defaults rootedState (LTree.node rootLoggerState LForest.nil)
    ['T'] [['U']] rfl (by decide) (by decide) rfl

/-- Claim C9: because `mutex rootmutex;` in the root factory is a
function-local variable, each thread locks a private mutex, so the
check-then-create on the shared `root_instance` is unsynchronized: the
interleaving in which both threads read the null pointer before either
assigns constructs *two* root `Logger` instances, while the serialized
schedule constructs one — contradicting the code's own comment that "The root
instance is unique". -/
theorem root_factory_local_mutex_race :
    (runRace [RaceStep.read1, RaceStep.read2, RaceStep.write1, RaceStep.write2]).created = 2 ∧
    (runRace [RaceStep.read1, RaceStep.write1, RaceStep.read2, RaceStep.write2]).created = 1 := by
  decide

/-- Claim C10 (confirmed): `set_logfile("")` on a node with an open log file
closes it and clears the recorded file name, touches nothing else on the node
(threshold, stream selection, propagation, module name are all preserved by
the record update), records no error, and leaves the file system untouched. -/
theorem set_logfile_empty_clears (fs : FileSys) (st : LoggerState)
    (_hopen : st.logfileOpen = true) (hname : st.filename ≠ "") :
    set_logfile fs st ""
      = (fs, { st with logfileOpen := false, filename := "" }, false) := by
  unfold set_logfile
  rw [if_pos rfl]
  rw [if_pos (Ne.symm hname)]
  rw [if_neg (by simp)]

/-- Claim C10 witness: clearing the open file of a fully configured node. -/
theorem set_logfile_empty_clears_witness :
    set_logfile witnessFS openFileNode ""
      = (witnessFS,
         { openFileNode with logfileOpen := false, filename := "" }, false) :=
  set_logfile_empty_clears witnessFS openFileNode rfl (by decide)

end McastLogging
